import Mathlib

/-!
Verification of the quiz-generation content pipeline of the
smartlearn-empower-futures repository against its natural-language
specification.

The embedding below is translated from the TypeScript sources:
  * `src/services/quizService.ts` — the `QuizService` class
    (`parseTextFormatQuestions`, `deserializeQuestions`,
    `parseQuestionsFlexible`, `submitQuiz`, `getLeaderboard`,
    `generateQuizInChunks`);
  * `src/utils/courseDebugger.ts` (shipped unnamed as `part_001`) —
    `analyzeCourseContent` and `validateForQuizGeneration`.

JavaScript strings are modelled as Lean `String`s processed as `List Char`;
JavaScript regular-expression operations used by the code are implemented
directly (each helper's doc comment names the regex it models).  Firestore
is modelled as an explicit state record, one field per collection the code
touches; each awaited write is an explicit step so that a failure of the
k-th write (modelled by an optional failing write index) leaves exactly the
previously performed writes persisted, which is how sequential awaited
`addDoc`/`updateDoc` calls behave.
-/

set_option maxRecDepth 100000

namespace SmartLearn

/-! ## JavaScript string helpers -/

/-- JavaScript whitespace as used by `String.prototype.trim` and `\s`
(ASCII subset: the inputs considered are ASCII). -/
def isJsWs (c : Char) : Bool :=
  c = ' ' || c = '\t' || c = '\n' || c = '\r' || c = '\x0b' || c = '\x0c'

/-- `String.prototype.trim`. -/
def jsTrim (s : String) : String :=
  ⟨((s.toList.dropWhile isJsWs).reverse.dropWhile isJsWs).reverse⟩

/-- Auxiliary: split a character list at a separator character. -/
def splitOnCharAux (sep : Char) : List Char → List Char → List String
  | [], acc => [⟨acc.reverse⟩]
  | c :: cs, acc =>
    if c = sep then ⟨acc.reverse⟩ :: splitOnCharAux sep cs []
    else splitOnCharAux sep cs (c :: acc)

/-- `String.prototype.split` with a single-character separator. -/
def splitOnChar (sep : Char) (s : String) : List String :=
  splitOnCharAux sep s.toList []

/-- Auxiliary: does `pat` occur as a prefix of the character list? -/
def startsWithList : List Char → List Char → Bool
  | [], _ => true
  | _ :: _, [] => false
  | p :: ps, c :: cs => p = c && startsWithList ps cs

/-- `String.prototype.startsWith`. -/
def jsStartsWith (s pat : String) : Bool :=
  startsWithList pat.toList s.toList

/-- Auxiliary for `removeFirst`: delete the first occurrence of `pat`. -/
def removeFirstAux (pat : List Char) : List Char → List Char
  | [] => []
  | c :: cs =>
    if startsWithList pat (c :: cs) then (c :: cs).drop pat.length
    else c :: removeFirstAux pat cs

/-- `String.prototype.replace(pat, '')` for a plain-string `pat`:
removes the first occurrence of `pat`. -/
def removeFirst (s pat : String) : String :=
  ⟨removeFirstAux pat.toList s.toList⟩

/-- `String.prototype.toUpperCase` (ASCII). -/
def jsToUpper (s : String) : String :=
  ⟨s.toList.map Char.toUpper⟩

/-! ## Canonical question data (the anonymous object shapes built by
`parseTextFormatQuestions` and consumed by `submitQuiz`) -/

/-- One answer option
(`{id, text, isCorrect, explanation}` in `quizService.ts`). -/
structure AnswerOption where
  id : Nat
  text : String
  isCorrect : Bool
  explanation : String
deriving DecidableEq, Repr

/-- One parsed question (`{id, text, section, options}` in `quizService.ts`;
the `section` key is named `sectionLabel` here because `section` is a Lean
keyword — the spec uses the same name). -/
structure Question where
  id : Nat
  text : String
  sectionLabel : String
  options : List AnswerOption
deriving DecidableEq, Repr

/-! ## The free-text response path: `parseTextFormatQuestions`
(`quizService.ts` lines 1426-1486) -/

/-- Match the regex `/Question \d+:/i` at the head of the character list,
returning the remainder after the match. -/
def matchQuestionMarker (cs : List Char) : Option (List Char) :=
  if (cs.take 8).map Char.toLower = "question".toList then
    match cs.drop 8 with
    | ' ' :: rest =>
      let ds := rest.takeWhile Char.isDigit
      if ds.isEmpty then none
      else
        match rest.drop ds.length with
        | ':' :: rest2 => some rest2
        | _ => none
    | _ => none
  else none

/-- Auxiliary: split on every occurrence of `/Question \d+:/i`
(fuel-driven; `fuel ≥` remaining length keeps it total). -/
def splitQMAux : Nat → List Char → List Char → List (List Char)
  | 0, cs, acc => [acc.reverse ++ cs]
  | fuel + 1, cs, acc =>
    match cs with
    | [] => [acc.reverse]
    | c :: cs' =>
      match matchQuestionMarker (c :: cs') with
      | some rest => acc.reverse :: splitQMAux fuel rest []
      | none => splitQMAux fuel cs' (c :: acc)

/-- `response.split(/Question \d+:/i).slice(1)`. -/
def splitQuestionBlocks (s : String) : List String :=
  ((splitQMAux s.toList.length s.toList []).map fun cs => (⟨cs⟩ : String)).drop 1

/-- `block.trim().split('\n').map(line => line.trim()).filter(line => line)`. -/
def linesOf (block : String) : List String :=
  ((splitOnChar '\n' (jsTrim block)).map jsTrim).filter (fun l => l ≠ "")

/-- `line.replace(/^\d+[.:]?\s*/, '')`. -/
def stripLeadingNumber (s : String) : String :=
  let cs := s.toList
  let ds := cs.takeWhile Char.isDigit
  if ds.isEmpty then s
  else
    let r1 := cs.drop ds.length
    let r2 := match r1 with
      | '.' :: t => t
      | ':' :: t => t
      | _ => r1
    ⟨r2.dropWhile isJsWs⟩

/-- `/^[A-D]\)/.test(line)`. -/
def isOptionLine (l : String) : Bool :=
  match l.toList with
  | c :: ')' :: _ => 'A' ≤ c && c ≤ 'D'
  | _ => false

/-- `optionLine.replace(/^[A-D]\)\s*/, '').trim()`. -/
def optionTextOf (l : String) : String :=
  if isOptionLine l then jsTrim ⟨(l.toList.drop 2).dropWhile isJsWs⟩
  else jsTrim l

/-- The option list built from the lines matching `^[A-D]\)`, each with
`isCorrect: false` and empty explanation (lines 1443-1454). -/
def optionsOf (ls : List String) : List AnswerOption :=
  (ls.filter isOptionLine).enum.map fun p =>
    { id := p.1 + 1, text := optionTextOf p.2, isCorrect := false, explanation := "" }

/-- `lines.find(line => line.startsWith('Section:'))?.replace('Section:', '').trim() || 'General'`. -/
def sectionOf (ls : List String) : String :=
  match ls.find? (fun l => jsStartsWith l "Section:") with
  | none => "General"
  | some l =>
    let s := jsTrim (removeFirst l "Section:")
    if s = "" then "General" else s

/-- `correctAnswerLine?.replace('Correct Answer:', '').trim().toUpperCase()`:
`none` when no line starts with `Correct Answer:` (the JS value is then
`undefined`). -/
def correctLetterOf (ls : List String) : Option String :=
  (ls.find? (fun l => jsStartsWith l "Correct Answer:")).map
    fun l => jsToUpper (jsTrim (removeFirst l "Correct Answer:"))

/-- `correctLetter ? correctLetter.charCodeAt(0) - 65 : 0` — both
`undefined` and the empty string are falsy, giving index 0. -/
def correctIndexOf (ls : List String) : Int :=
  match correctLetterOf ls with
  | none => 0
  | some letter =>
    if letter = "" then 0
    else
      match letter.toList with
      | c :: _ => (c.toNat : Int) - 65
      | [] => 0

/-- `explanationLine?.replace('Explanation:', '').trim() || ''`. -/
def explanationOf (ls : List String) : String :=
  match ls.find? (fun l => jsStartsWith l "Explanation:") with
  | none => ""
  | some l => jsTrim (removeFirst l "Explanation:")

/-- Replace the element at a position, if it exists (JS array index update). -/
def modifyOptAt : List AnswerOption → Nat → (AnswerOption → AnswerOption) → List AnswerOption
  | [], _, _ => []
  | o :: os, 0, f => f o :: os
  | o :: os, n + 1, f => o :: modifyOptAt os n f

/-- Lines 1461-1471: `if (options[correctIndex]) { options[correctIndex].isCorrect = true }`
and `if (options[correctIndex]) { options[correctIndex].explanation = explanation }`:
an out-of-range (or negative) index is `undefined`, hence falsy, and nothing
is marked. -/
def markCorrect (opts : List AnswerOption) (idx : Int) (ex : String) : List AnswerOption :=
  if 0 ≤ idx ∧ idx.toNat < opts.length then
    modifyOptAt opts idx.toNat (fun o => { o with isCorrect := true, explanation := ex })
  else opts

/-- One iteration of the `questionBlocks.forEach` body (lines 1430-1483):
`none` models the early `return` when the block has no lines or an empty
question text.  The `index` is the block's position in `questionBlocks`. -/
def parseBlock (index : Nat) (block : String) : Option Question :=
  let ls := linesOf block
  match ls with
  | [] => none
  | l0 :: _ =>
    let questionText := jsTrim (stripLeadingNumber l0)
    if questionText = "" then none
    else
      some { id := index + 1
             text := questionText
             sectionLabel := sectionOf ls
             options := markCorrect (optionsOf ls) (correctIndexOf ls) (explanationOf ls) }

/-- `parseTextFormatQuestions` (lines 1426-1486): split the response on
`Question N:` markers and parse each block; blocks without a question text
are skipped.  (The per-block `try/catch` in the source can never fire: the
block body is total.) -/
def parseTextFormatQuestions (response : String) : List Question :=
  ((splitQuestionBlocks response).enum).filterMap fun p => parseBlock p.1 p.2

/-! ## The structured response path: `deserializeQuestions`
(`quizService.ts` lines 555-584)

`JSON.parse` is modelled by a small JSON reader producing an untyped value
(the TypeScript code casts the parsed value without any field validation, so
the elements of the returned array are raw parsed values).  Number literals
are kept as their source lexeme: nothing in the verified code consumes them
numerically. -/

/-- An untyped parsed JSON value, as produced by `JSON.parse`. -/
inductive JsonVal where
  | null : JsonVal
  | bool : Bool → JsonVal
  | num : String → JsonVal
  | str : String → JsonVal
  | arr : List JsonVal → JsonVal
  | obj : List (String × JsonVal) → JsonVal

/-- JSON whitespace (RFC 8259: space, tab, line feed, carriage return). -/
def isJsonWs (c : Char) : Bool :=
  c = ' ' || c = '\t' || c = '\n' || c = '\r'

/-- Hexadecimal digit value, for `\uXXXX` escapes. -/
def hexVal (c : Char) : Option Nat :=
  if '0' ≤ c ∧ c ≤ '9' then some (c.toNat - '0'.toNat)
  else if 'a' ≤ c ∧ c ≤ 'f' then some (c.toNat - 'a'.toNat + 10)
  else if 'A' ≤ c ∧ c ≤ 'F' then some (c.toNat - 'A'.toNat + 10)
  else none

/-- Read a JSON string body (after the opening quote), handling escapes. -/
def pStrAux : List Char → List Char → Option (String × List Char)
  | [], _ => none
  | '"' :: rest, acc => some (⟨acc.reverse⟩, rest)
  | '\\' :: e :: rest, acc =>
    match e with
    | '"' => pStrAux rest ('"' :: acc)
    | '\\' => pStrAux rest ('\\' :: acc)
    | '/' => pStrAux rest ('/' :: acc)
    | 'b' => pStrAux rest ('\x08' :: acc)
    | 'f' => pStrAux rest ('\x0c' :: acc)
    | 'n' => pStrAux rest ('\n' :: acc)
    | 'r' => pStrAux rest ('\r' :: acc)
    | 't' => pStrAux rest ('\t' :: acc)
    | 'u' =>
      match rest with
      | h1 :: h2 :: h3 :: h4 :: rest' =>
        match hexVal h1, hexVal h2, hexVal h3, hexVal h4 with
        | some a, some b, some c, some d =>
          pStrAux rest' (Char.ofNat (a * 4096 + b * 256 + c * 16 + d) :: acc)
        | _, _, _, _ => none
      | _ => none
    | _ => none
  | c :: rest, acc => pStrAux rest (c :: acc)

/-- Read a JSON number as its lexeme: optional minus, digits, optional
fraction, optional exponent. -/
def pNum (cs : List Char) : Option (String × List Char) :=
  let (sign, cs1) : List Char × List Char :=
    match cs with
    | '-' :: t => (['-'], t)
    | _ => ([], cs)
  let ds := cs1.takeWhile Char.isDigit
  if ds.isEmpty then none
  else
    let cs2 := cs1.drop ds.length
    let (frac, cs3) : List Char × List Char :=
      match cs2 with
      | '.' :: t =>
        let fd := t.takeWhile Char.isDigit
        if fd.isEmpty then ([], cs2) else ('.' :: fd, t.drop fd.length)
      | _ => ([], cs2)
    let (ex, cs4) : List Char × List Char :=
      match cs3 with
      | 'e' :: t =>
        let (es, t2) : List Char × List Char :=
          match t with
          | '+' :: t' => (['e', '+'], t')
          | '-' :: t' => (['e', '-'], t')
          | _ => (['e'], t)
        let ed := t2.takeWhile Char.isDigit
        if ed.isEmpty then ([], cs3) else (es ++ ed, t2.drop ed.length)
      | 'E' :: t =>
        let (es, t2) : List Char × List Char :=
          match t with
          | '+' :: t' => (['E', '+'], t')
          | '-' :: t' => (['E', '-'], t')
          | _ => (['E'], t)
        let ed := t2.takeWhile Char.isDigit
        if ed.isEmpty then ([], cs3) else (es ++ ed, t2.drop ed.length)
      | _ => ([], cs3)
    some (⟨sign ++ ds ++ frac ++ ex⟩, cs4)

mutual

/-- Read one JSON value (fuel-driven; the fuel passed by `jsonParse`
always suffices, and running out reports a parse failure). -/
def pVal : Nat → List Char → Option (JsonVal × List Char)
  | 0, _ => none
  | fuel + 1, cs =>
    match cs.dropWhile isJsonWs with
    | 'n' :: 'u' :: 'l' :: 'l' :: r => some (.null, r)
    | 't' :: 'r' :: 'u' :: 'e' :: r => some (.bool true, r)
    | 'f' :: 'a' :: 'l' :: 's' :: 'e' :: r => some (.bool false, r)
    | '"' :: r => (pStrAux r []).map fun p => (.str p.1, p.2)
    | '[' :: r =>
      match r.dropWhile isJsonWs with
      | ']' :: r2 => some (.arr [], r2)
      | _ => pArrItems fuel r []
    | '{' :: r =>
      match r.dropWhile isJsonWs with
      | '}' :: r2 => some (.obj [], r2)
      | _ => pObjItems fuel r []
    | c :: r =>
      if c = '-' || c.isDigit then (pNum (c :: r)).map fun p => (.num p.1, p.2)
      else none
    | [] => none

/-- Read the comma-separated items of a JSON array. -/
def pArrItems : Nat → List Char → List JsonVal → Option (JsonVal × List Char)
  | 0, _, _ => none
  | fuel + 1, cs, acc =>
    match pVal fuel cs with
    | none => none
    | some (v, r) =>
      match r.dropWhile isJsonWs with
      | ',' :: r2 => pArrItems fuel r2 (acc ++ [v])
      | ']' :: r2 => some (.arr (acc ++ [v]), r2)
      | _ => none

/-- Read the comma-separated members of a JSON object. -/
def pObjItems : Nat → List Char → List (String × JsonVal) → Option (JsonVal × List Char)
  | 0, _, _ => none
  | fuel + 1, cs, acc =>
    match cs.dropWhile isJsonWs with
    | '"' :: r =>
      match pStrAux r [] with
      | none => none
      | some (k, r2) =>
        match r2.dropWhile isJsonWs with
        | ':' :: r3 =>
          match pVal fuel r3 with
          | none => none
          | some (v, r4) =>
            match r4.dropWhile isJsonWs with
            | ',' :: r5 => pObjItems fuel r5 (acc ++ [(k, v)])
            | '}' :: r5 => some (.obj (acc ++ [(k, v)]), r5)
            | _ => none
        | _ => none
    | _ => none

end

/-- `JSON.parse`: one value, then only whitespace to the end of input. -/
def jsonParse (s : String) : Option JsonVal :=
  match pVal (2 * s.length + 8) s.toList with
  | some (v, rest) => if (rest.dropWhile isJsonWs).isEmpty then some v else none
  | none => none

/-- Field lookup on a parsed JSON object. -/
def jsonField (v : JsonVal) (k : String) : Option JsonVal :=
  match v with
  | .obj kvs => (kvs.find? fun kv => kv.1 = k).map (·.2)
  | _ => none

/-- Length of a parsed JSON array. -/
def jsonArrLength (v : JsonVal) : Option Nat :=
  match v with
  | .arr l => some l.length
  | _ => none

/-- `rawJson.replace(/^```(?:json)?\s*|\s*```$/g, '')`: strip a leading
code fence (optionally tagged `json`, plus following whitespace) and a
trailing code fence (plus preceding whitespace). -/
def stripCodeFences (s : String) : String :=
  let s1 :=
    if jsStartsWith s "```json" then ⟨(s.toList.drop 7).dropWhile isJsWs⟩
    else if jsStartsWith s "```" then ⟨(s.toList.drop 3).dropWhile isJsWs⟩
    else s
  if startsWithList "```".toList (s1.toList.reverse.take 3).reverse then
    ⟨((s1.toList.reverse.drop 3).dropWhile isJsWs).reverse⟩
  else s1

/-- `clean.replace(/,\s*([}\]])/g, '$1')`: drop a comma standing (up to
whitespace) before a closing brace or bracket; scanning resumes after the
kept bracket, as JS global replace does (fuel-driven). -/
def removeTrailingCommasAux : Nat → List Char → List Char
  | 0, cs => cs
  | fuel + 1, cs =>
    match cs with
    | [] => []
    | ',' :: rest =>
      let r2 := rest.dropWhile isJsWs
      match r2 with
      | '}' :: r3 => '}' :: removeTrailingCommasAux fuel r3
      | ']' :: r3 => ']' :: removeTrailingCommasAux fuel r3
      | _ => ',' :: removeTrailingCommasAux fuel rest
    | c :: rest => c :: removeTrailingCommasAux fuel rest

/-- The body of `deserializeQuestions`' `try` block (lines 565-579): clean
the raw string, parse it, and require a top-level array; a `JSON.parse`
failure is the thrown error the surrounding `catch` handles. -/
def deserializeQuestionsCore (rawJson : String) : Except String (List JsonVal) :=
  let clean := jsTrim (stripCodeFences rawJson)
  let clean := if jsStartsWith clean "[" then clean else "[" ++ clean ++ "]"
  let clean : String := ⟨removeTrailingCommasAux clean.length clean.toList⟩
  match jsonParse clean with
  | none => .error "Error parsing quiz questions JSON"
  | some (.arr l) => .ok l
  | some _ => .ok []

/-- `deserializeQuestions` (lines 555-584): the `catch` turns any parse
error into the empty list, so the function as a whole is total and never
throws. -/
def deserializeQuestions (rawJson : String) : List JsonVal :=
  match deserializeQuestionsCore rawJson with
  | .ok l => l
  | .error _ => []

/-- `parseQuestionsFlexible` (lines 1411-1419).  The source is
`try { return this.deserializeQuestions(response) } catch { ... return
this.parseTextFormatQuestions(response) }`; since `deserializeQuestions`
catches its own parse error internally and returns `[]`, it never throws,
and the `catch` branch (the free-text fallback) is unreachable — the
function always returns exactly the structured-path result. -/
def parseQuestionsFlexible (response : String) : List JsonVal :=
  deserializeQuestions response

/-! ## Quiz submission: `submitQuiz` (`quizService.ts` lines 323-438)

Firestore is a state record with the two collections `submitQuiz` writes
(`quizResults`, `quizAnswers`).  A stored quiz-result document carries the
question list its `questionsJson` field deserializes to (the code re-parses
the stored JSON text on every read with the deterministic, total
`deserializeQuestions`; the claims under verification concern scoring and
persistence, not that serialization round trip).  Each awaited Firestore
write is one step: `failAt = some k` makes the k-th write of this
submission call throw, modelling a backend failure; writes before it are
already persisted, which is exactly the behaviour of sequential awaited
`addDoc`/`updateDoc` calls without a transaction or batch. -/

/-- One answer submitted by the user
(`{questionId, selectedOptionId}`). -/
structure SubAnswer where
  questionId : String
  selectedOptionId : Int
deriving DecidableEq, Repr

/-- A document of the `quizResults` collection (the fields `submitQuiz`
reads and writes; `questions` stands for
`deserializeQuestions(questionsJson)`). -/
structure QuizResultDoc where
  id : String
  userId : String
  courseId : String
  questions : List Question
  score : Nat
  isCompleted : Bool
deriving DecidableEq, Repr

/-- A document of the `quizAnswers` collection, as written at lines
401-408. -/
structure AnswerDoc where
  quizResultId : String
  userId : String
  questionId : String
  selectedOptionId : Int
  isCorrect : Bool
deriving DecidableEq, Repr

/-- The Firestore state visible to `submitQuiz`. -/
structure DB where
  quizResults : List QuizResultDoc
  quizAnswers : List AnswerDoc
deriving DecidableEq, Repr

/-- JavaScript array indexing `arr[i]`: `undefined` (here `none`) when the
index is negative or past the end. -/
def jsIndex (l : List AnswerOption) (i : Int) : Option AnswerOption :=
  if h : 0 ≤ i ∧ i.toNat < l.length then some (l.get ⟨i.toNat, h.2⟩) else none

/-- `getUserCourseScores` (lines 661-686): the scores of the user's
completed results for the course. -/
def getUserCourseScores (db : DB) (userId courseId : String) : List Nat :=
  (db.quizResults.filter fun r =>
    r.userId = userId && r.courseId = courseId && r.isCompleted).map (·.score)

/-! The score at line 412,
`Math.round((correctCount / questions.length) * 100)`, is computed in
IEEE-754 double arithmetic, and the two roundings (the division and the
multiplication by 100, each round-to-nearest, ties-to-even, 53-bit) can
land the product just below a half-integer where exact arithmetic would
sit on it: `(23/40)*100` is the double `57.49999999999999289`, which
`Math.round` takes to 57 although `round(100·23/40) = 58`.  The model
below performs those roundings exactly on rationals represented as
mantissa·2^exponent pairs.  The exponent is unbounded (the values arising
from a score computation are far inside the normal double range, so
overflow and subnormal handling would be dead code); conversions of the
integer operands are themselves rounded, so the model is exact for every
count the program can hold.  `Math.round` itself is specified on the exact
value of its argument: nearest integer, ties toward positive infinity. -/

/-- Is `p/q ≥ 2^l` (for positive `p`, `q`)? -/
def ratGe2Pow (p q : Nat) (l : Int) : Bool :=
  if l ≥ 0 then p ≥ q * 2 ^ l.toNat else p * 2 ^ (-l).toNat ≥ q

/-- Bit length by repeated halving (fuel-driven structural recursion, so
that concrete evaluation reduces; `fuel ≥ n` always suffices). -/
def bitLenAux : Nat → Nat → Nat
  | 0, _ => 0
  | fuel + 1, n => if n = 0 then 0 else bitLenAux fuel (n / 2) + 1

/-- `⌊log2 n⌋` for `n ≥ 1` (0 at 0). -/
def natLog2 (n : Nat) : Nat :=
  bitLenAux n n - 1

/-- `⌊log2 (p/q)⌋` for positive `p`, `q`. -/
def ratLog2 (p q : Nat) : Int :=
  let l0 : Int := (natLog2 p : Int) - (natLog2 q : Int)
  if ratGe2Pow p q (l0 + 1) then l0 + 1
  else if ratGe2Pow p q l0 then l0
  else l0 - 1

/-- Round the positive rational `p/q` to 53 significant bits, nearest with
ties to even: the returned `(m, e)` satisfies `2^52 ≤ m < 2^53` and the
rounded value is `m·2^e`. -/
def roundMantissa (p q : Nat) : Nat × Int :=
  let l := ratLog2 p q
  let e := l - 52
  let nd : Nat × Nat :=
    if e ≥ 0 then (p, q * 2 ^ e.toNat) else (p * 2 ^ (-e).toNat, q)
  let t := nd.1 / nd.2
  let r := nd.1 % nd.2
  let m := if 2 * r < nd.2 then t
           else if 2 * r > nd.2 then t + 1
           else if t % 2 = 0 then t else t + 1
  if m = 2 ^ 53 then (2 ^ 52, e + 1) else (m, e)

/-- `Math.round` of the positive value `m·2^e`: the nearest integer, ties
toward positive infinity (`⌊x + 1/2⌋`). -/
def mathRoundPos (m : Nat) (e : Int) : Nat :=
  if e ≥ 0 then m * 2 ^ e.toNat
  else (2 * m + 2 ^ (-e).toNat) / 2 ^ ((-e).toNat + 1)

/-- `Math.round((c / n) * 100)` as the program computes it (line 412):
convert `c` and `n` to doubles, divide (one rounding), multiply by the
exactly-representable 100 (one rounding), and round the exact value of the
resulting double to the nearest integer, ties up.  `c = 0` divides to
`+0`; `n = 0` never reaches this function (the caller guards it). -/
def jsScorePct (c n : Nat) : Nat :=
  if c = 0 ∨ n = 0 then 0
  else
    let mc := roundMantissa c 1
    let mn := roundMantissa n 1
    let dq := mc.2 - mn.2
    let pq : Nat × Nat :=
      if dq ≥ 0 then (mc.1 * 2 ^ dq.toNat, mn.1) else (mc.1, mn.1 * 2 ^ (-dq).toNat)
    let md := roundMantissa pq.1 pq.2
    let mp := roundMantissa (md.1 * 100) 1
    mathRoundPos mp.1 (md.2 + mp.2)

/-- Modelled from the spec: the claim C7's
`round(100 * correctCount / totalQuestionCount)` as exact rational
rounding (half up), stated only to compare the claim's formula with the
double computation the code performs. -/
def specRoundPct (c n : Nat) : Nat :=
  (200 * c + n) / (2 * n)

/-- The fields of the result returned by `submitQuiz` that the
specification's claims mention (the per-question echo maps
`selectedAnswers`/`explanations`/`correctAnswers`/`userAnswers` are
returned too but no claim concerns them). -/
structure SubmitOutcome where
  score : Nat
  isNewHighScore : Bool
  previousHighScore : Nat
deriving DecidableEq, Repr

/-- The `for (const answer of submission.questions)` loop (lines 372-409):
skip answers whose question is missing or whose selected/correct option is
undefined, tally `correctCount`, and perform one `addDoc` write into
`quizAnswers` per processed answer.  A thrown write (`failAt` equal to the
running write index) aborts the loop with the state persisted so far. -/
def submitLoop (questions : List Question) (rid uid : String) (failAt : Option Nat) :
    List SubAnswer → Nat → Nat → DB → Except DB (Nat × Nat × DB)
  | [], correctCount, writeIdx, db => .ok (correctCount, writeIdx, db)
  | a :: rest, correctCount, writeIdx, db =>
    match questions.find? (fun q => "q_" ++ toString q.id = a.questionId) with
    | none => submitLoop questions rid uid failAt rest correctCount writeIdx db
    | some questionData =>
      match jsIndex questionData.options a.selectedOptionId,
            questionData.options.find? (·.isCorrect) with
      | some selectedOption, some _ =>
        let isCorrect := selectedOption.isCorrect
        let correctCount' := if isCorrect then correctCount + 1 else correctCount
        if failAt = some writeIdx then .error db
        else
          submitLoop questions rid uid failAt rest correctCount' (writeIdx + 1)
            { db with
              quizAnswers := db.quizAnswers ++
                [{ quizResultId := rid, userId := uid, questionId := a.questionId,
                   selectedOptionId := a.selectedOptionId, isCorrect := isCorrect }] }
      | _, _ => submitLoop questions rid uid failAt rest correctCount writeIdx db

/-- The `updateDoc(quizResultDoc.ref, {...})` write (lines 418-422): set
score and completion on the first document with the given id (the one
`docs[0]` of the query). -/
def updateQuizResult (l : List QuizResultDoc) (rid : String) (score : Nat) :
    List QuizResultDoc :=
  match l with
  | [] => []
  | r :: rest =>
    if r.id = rid then { r with score := score, isCompleted := true } :: rest
    else r :: updateQuizResult rest rid score

/-- The body of `submitQuiz`'s `try` block (lines 335-433): an `.error`
carries the thrown message together with the Firestore state at the moment
of the throw. -/
def submitQuizCore (db : DB) (quizResultId userId : String) (subs : List SubAnswer)
    (failAt : Option Nat) : Except (String × DB) (SubmitOutcome × DB) :=
  match db.quizResults.find? (fun r => r.id = quizResultId) with
  | none => .error ("Quiz result not found", db)
  | some quizResult =>
    if quizResult.userId ≠ userId then .error ("Unauthorized access to quiz result", db)
    else if quizResult.isCompleted then .error ("Quiz already submitted", db)
    else
      let questions := quizResult.questions
      let previousScores := getUserCourseScores db userId quizResult.courseId
      let previousHighScore := if previousScores.isEmpty then 0 else previousScores.foldl max 0
      match submitLoop questions quizResultId userId failAt subs 0 0 db with
      | .error dbAtFailure => .error ("Firestore write failed", dbAtFailure)
      | .ok (correctCount, writeIdx, db1) =>
        let score := if questions.length > 0 then jsScorePct correctCount questions.length else 0
        if failAt = some writeIdx then .error ("Firestore write failed", db1)
        else
          (.ok ({ score := score,
                  isNewHighScore := score > previousHighScore,
                  previousHighScore := previousHighScore },
                { db1 with quizResults := updateQuizResult db1.quizResults quizResultId score }))

/-- `submitQuiz` (lines 323-438): the surrounding `catch` logs the real
error and rethrows the generic `'Failed to submit quiz'`, so every failure
reaches the caller with that one message. -/
def submitQuiz (db : DB) (quizResultId userId : String) (subs : List SubAnswer)
    (failAt : Option Nat) : Except String SubmitOutcome × DB :=
  match submitQuizCore db quizResultId userId subs failAt with
  | .ok (out, db') => (.ok out, db')
  | .error (_, db') => (.error "Failed to submit quiz", db')

/-- The pure correct-answer tally of a submission: the value `correctCount`
holds after the loop when no write fails. -/
def countCorrect (questions : List Question) : List SubAnswer → Nat
  | [] => 0
  | a :: rest =>
    match questions.find? (fun q => "q_" ++ toString q.id = a.questionId) with
    | none => countCorrect questions rest
    | some questionData =>
      match jsIndex questionData.options a.selectedOptionId,
            questionData.options.find? (·.isCorrect) with
      | some selectedOption, some _ =>
        (if selectedOption.isCorrect then 1 else 0) + countCorrect questions rest
      | _, _ => countCorrect questions rest

/-! ## Leaderboard ranking: the pure steps 3-4 of `getLeaderboard`
(`quizService.ts` lines 489-504) -/

/-- A leaderboard entry (the fields the ranking comparator uses). -/
structure LBEntry where
  userId : String
  score : Int
  timeTaken : Int
deriving DecidableEq, Repr

/-- The sort comparator of lines 492-494 and 500-503 as a `before-or-tied`
test: higher score first, ties broken by lower `timeTaken`. -/
def lbLe (a b : LBEntry) : Bool :=
  b.score < a.score || (a.score = b.score && a.timeTaken ≤ b.timeTaken)

/-- Stable insertion of one element into a list sorted by `lbLe`. -/
def insertRanked (x : LBEntry) : List LBEntry → List LBEntry
  | [] => [x]
  | y :: ys => if lbLe x y then x :: y :: ys else y :: insertRanked x ys

/-- `Array.prototype.sort` with the score/time comparator: a stable sort
(as JavaScript's sort is), realised as stable insertion sort. -/
def sortEntries : List LBEntry → List LBEntry
  | [] => []
  | x :: xs => insertRanked x (sortEntries xs)

/-- Lines 483-487: the `entries[userId]` record accumulates per-user lists,
keys in first-appearance order (JavaScript object key order for string
keys). -/
def addToGroups : List (String × List LBEntry) → LBEntry → List (String × List LBEntry)
  | [], e => [(e.userId, [e])]
  | (k, v) :: rest, e =>
    if k = e.userId then (k, v ++ [e]) :: rest
    else (k, v) :: addToGroups rest e

/-- Group the mapped entries by user id, preserving encounter order. -/
def groupByUser (l : List LBEntry) : List (String × List LBEntry) :=
  l.foldl addToGroups []

/-- Step 3 (lines 489-496): each user's best attempt — the head of the
user's list sorted by the comparator. -/
def bestPerUser (l : List LBEntry) : List LBEntry :=
  (groupByUser l).filterMap fun g => (sortEntries g.2).head?

/-- Steps 3-4 of `getLeaderboard` (lines 489-504): reduce to one best
attempt per user, sort by the same comparator, take the first `topCount`. -/
def rankLeaderboard (l : List LBEntry) (topCount : Nat) : List LBEntry :=
  (sortEntries (bestPerUser l)).take topCount

/-! ## Chunked generation: `generateQuizInChunks`
(`quizService.ts` lines 1283-1356)

A sub-call's outcome (`openAIService.generateText` followed by
`parseQuestionsFlexible`) is abstracted as an oracle from the sub-call's
section index to either a thrown generation error or the parsed question
list; everything the claim C5 speaks about (sections used, per-call
requested counts, their sum) is computed by the loop itself.  The returned
trace records the `questionsNeeded` of every sub-call actually made. -/

/-- An analyzed content section (title and body; the subtitles/key-terms
fields do not influence the counts claim C5 is about). -/
structure CourseSection where
  title : String
  content : String
deriving DecidableEq, Repr

/-- `q.id = allQuestions.length + index + 1` (lines 1339-1341). -/
def reindexQuestions (base : Nat) (qs : List Question) : List Question :=
  qs.enum.map fun p => { p.2 with id := base + p.1 + 1 }

/-- `Math.ceil(numQuestions / Math.min(sectionsWithSubtitles.length, 3))`
(line 1291); the divisor-zero case (no sections) is never consumed because
the loop then has nothing to iterate. -/
def questionsPerSectionOf (sectionCount numQuestions : Nat) : Nat :=
  let m := min sectionCount 3
  if m = 0 then 0 else (numQuestions + m - 1) / m

/-- The `for` loop of lines 1297-1350 over the (index, section) pairs of
`sectionsToProcess`: stop when enough questions are collected, request
`min(questionsPerSection, numQuestions - collected)` from each remaining
section, skip a section whose sub-call throws, and append at most the
requested number of re-indexed parsed questions. -/
def chunkLoop (oracle : Nat → Except Unit (List Question)) (qps numQuestions : Nat) :
    List (Nat × CourseSection) → List Question → List Nat → List Question × List Nat
  | [], acc, trace => (acc, trace)
  | (i, _) :: rest, acc, trace =>
    if acc.length < numQuestions then
      let questionsNeeded := min qps (numQuestions - acc.length)
      if questionsNeeded = 0 then (acc, trace)
      else
        match oracle i with
        | .error _ => chunkLoop oracle qps numQuestions rest acc (trace ++ [questionsNeeded])
        | .ok sectionQuestions =>
          chunkLoop oracle qps numQuestions rest
            (acc ++ (reindexQuestions acc.length sectionQuestions).take questionsNeeded)
            (trace ++ [questionsNeeded])
    else (acc, trace)

/-- `generateQuizInChunks` (lines 1283-1356): at most the first 3 sections
are processed; the result is `allQuestions.slice(0, numQuestions)`
(returned serialized in the source) together with the trace of per-sub-call
requested counts. -/
def generateQuizInChunks (sections : List CourseSection) (numQuestions : Nat)
    (oracle : Nat → Except Unit (List Question)) : List Question × List Nat :=
  let qps := questionsPerSectionOf sections.length numQuestions
  let sectionsToProcess := sections.take 3
  let r := chunkLoop oracle qps numQuestions sectionsToProcess.enum [] []
  (r.1.take numQuestions, r.2)

/-! ## Content validation: `analyzeCourseContent` and
`validateForQuizGeneration` (`courseDebugger.ts`, shipped as `part_001`)

The course is given as its list of content sections (a course whose
`content` is missing, not an array, or empty takes early-return paths that
coincide with the empty list here).  Of the analysis record only the four
counters that `validateForQuizGeneration` consumes are modelled; the
`sectionsWithIssues`/`recommendations` diagnostics feed no claim. -/

/-- A raw course content block (`{title, content}`). -/
structure RawSection where
  title : String
  content : String
deriving DecidableEq, Repr

/-- The counters of `ContentAnalysis` that validation reads. -/
structure ContentCounters where
  totalSections : Nat
  validSections : Nat
  emptySections : Nat
  totalCharacters : Nat
deriving DecidableEq, Repr

/-- `analyzeCourseContent` (part_001 lines 26-135), restricted to the
counters: every section's trimmed length is added to `totalCharacters`
(lines 56-57) whether or not the section is valid; a section is valid when
its trimmed length is at least 50 (lines 59-76). -/
def analyzeCourseContent (sections : List RawSection) : ContentCounters :=
  sections.foldl
    (fun a s =>
      let contentLength := (jsTrim s.content).length
      let a := { a with totalCharacters := a.totalCharacters + contentLength }
      if contentLength = 0 then { a with emptySections := a.emptySections + 1 }
      else if contentLength < 50 then a
      else { a with validSections := a.validSections + 1 })
    { totalSections := sections.length, validSections := 0, emptySections := 0,
      totalCharacters := 0 }

/-- `validateForQuizGeneration` (part_001 lines 188-230): returns
`(isValid, issues)`. -/
def validateForQuizGeneration (sections : List RawSection) : Bool × List String :=
  let analysis := analyzeCourseContent sections
  let hasContent := analysis.totalSections > 0
  let sufficientLength := analysis.totalCharacters ≥ 200
  let hasValidSections := analysis.validSections > 0
  let issues : List String :=
    (if ¬hasContent then ["Course has no content sections"] else []) ++
    (if ¬sufficientLength then
      ["Course content too short (" ++ toString analysis.totalCharacters ++
        " chars, need at least 200)"] else []) ++
    (if ¬hasValidSections then ["No sections contain valid content"] else []) ++
    (if analysis.validSections < 2 ∧ analysis.totalSections > 1 then
      ["Most sections are empty or invalid - need at least 2 sections with content"] else [])
  (issues.isEmpty, issues)

/-- Modelled from the spec: the number of sections with a valid (trimmed,
length at least the 50-character threshold) body, as the claim C6 counts
them.  Used only to compare the claim's predicate with the code. -/
def specValidSectionCount (sections : List RawSection) : Nat :=
  (sections.filter fun s => 50 ≤ (jsTrim s.content).length).length

/-- Modelled from the spec: the total body length across the valid sections
only, which is the quantity the claim C6 bounds by 200 (the code instead
sums the trimmed lengths of all sections). -/
def specValidBodyTotal (sections : List RawSection) : Nat :=
  ((sections.filter fun s => 50 ≤ (jsTrim s.content).length).map
    fun s => (jsTrim s.content).length).sum

/-- Observer for stating that the structured-path core threw. -/
def coreErrorMsg (r : Except String (List JsonVal)) : Option String :=
  match r with
  | .error e => some e
  | .ok _ => none

/-- The number of options of a parsed question marked correct. -/
def correctOptionCount (q : Question) : Nat :=
  (q.options.filter (·.isCorrect)).length

/-! ## Concrete fixtures used by the theorems below -/

/-- The spec's Scenario C input (free-text format, four options, correct
answer B). -/
def scenarioCText : String :=
  "Question 1: What is X?\nSection: Intro\nA) foo\nB) bar\nC) baz\nD) qux\nCorrect Answer: B\nExplanation: because bar"

/-- A free-text response whose single block offers only two options. -/
def twoOptionText : String :=
  "Question 1: Q?\nA) x\nB) y\nCorrect Answer: A"

/-- A free-text response whose single block has a question text but no
option lines and no correct-answer line. -/
def noOptionText : String :=
  "Question 1: Hello\nno options here"

/-- A syntactically valid structured response containing one question with
only two options. -/
def jsonTwoOptionQuestion : String :=
  "[\x7b\"id\":1,\"text\":\"q\",\"section\":\"S\",\"options\":[\x7b\"id\":1,\"text\":\"a\",\"isCorrect\":true,\"explanation\":\"\"\x7d,\x7b\"id\":2,\"text\":\"b\",\"isCorrect\":false,\"explanation\":\"\"\x7d]\x7d]"

/-! ## Helper lemmas -/

/-- Every option built by `optionsOf` starts out not-correct. -/
theorem optionsOf_isCorrect_false (ls : List String) :
    ∀ o ∈ optionsOf ls, o.isCorrect = false := by
  intro o ho
  simp only [optionsOf, List.mem_map] at ho
  obtain ⟨p, -, rfl⟩ := ho
  rfl

/-- Filtering an all-false option list for correctness yields nothing. -/
theorem filter_isCorrect_of_allFalse :
    ∀ l : List AnswerOption, (∀ o ∈ l, o.isCorrect = false) →
      l.filter (·.isCorrect) = [] := by
  intro l
  induction l with
  | nil => intro _; rfl
  | cons o os ih =>
    intro h
    have ho : o.isCorrect = false := h o (List.mem_cons_self o os)
    simp only [List.filter_cons, ho]
    exact ih fun o' ho' => h o' (List.mem_cons_of_mem o ho')

/-- Marking at most one position of an all-false option list leaves at most
one correct option. -/
theorem countTrue_modifyOptAt_allFalse (ex : String) :
    ∀ (l : List AnswerOption) (n : Nat), (∀ o ∈ l, o.isCorrect = false) →
      ((modifyOptAt l n fun o => { o with isCorrect := true, explanation := ex }).filter
        (·.isCorrect)).length ≤ 1 := by
  intro l
  induction l with
  | nil => intro n _; simp [modifyOptAt]
  | cons o os ih =>
    intro n h
    have hos : ∀ o' ∈ os, o'.isCorrect = false :=
      fun o' ho' => h o' (List.mem_cons_of_mem o ho')
    cases n with
    | zero =>
      simp only [modifyOptAt, List.filter_cons]
      rw [filter_isCorrect_of_allFalse os hos]
      simp
    | succ m =>
      have ho : o.isCorrect = false := h o (List.mem_cons_self o os)
      simp only [modifyOptAt, List.filter_cons, ho]
      exact ih m hos

/-- `markCorrect` on an all-false option list yields at most one correct
option. -/
theorem countTrue_markCorrect (l : List AnswerOption) (i : Int) (ex : String)
    (h : ∀ o ∈ l, o.isCorrect = false) :
    ((markCorrect l i ex).filter (·.isCorrect)).length ≤ 1 := by
  unfold markCorrect
  split
  · exact countTrue_modifyOptAt_allFalse ex l i.toNat h
  · rw [filter_isCorrect_of_allFalse l h]
    simp

/-- The options of any question emitted by `parseBlock` are exactly the
marked `optionsOf` of the block's lines. -/
theorem parseBlock_options (i : Nat) (b : String) (q : Question)
    (h : parseBlock i b = some q) :
    q.options = markCorrect (optionsOf (linesOf b)) (correctIndexOf (linesOf b))
      (explanationOf (linesOf b)) := by
  unfold parseBlock at h
  cases hls : linesOf b with
  | nil => rw [hls] at h; simp at h
  | cons l0 t =>
    rw [hls] at h
    by_cases ht : jsTrim (stripLeadingNumber l0) = ""
    · simp [ht] at h
    · simp only [ht, if_false] at h
      rw [← Option.some_inj.mp h]

/-! ## Claim theorems -/

/-- C1, counterexample.  The claim states that every question returned by
`parseQuestionsFlexible` (on either path) has exactly 4 options and exactly
one correct option, violators being dropped.  On the structured path a
well-formed JSON array containing a question with only 2 options is
returned unchanged — one element, whose `options` array has length 2 — so
no such filter exists. -/
theorem c1_cex :
    (parseQuestionsFlexible jsonTwoOptionQuestion).length = 1 ∧
    ((parseQuestionsFlexible jsonTwoOptionQuestion).head?.bind
      fun v => jsonField v "options").bind jsonArrLength = some 2 := by
  constructor
  · decide
  · decide

/-- C1, amended.  Neither parsing path drops malformed questions: the
parser returns questions exactly as parsed.  What does hold is that on the
free-text path every emitted question has at most one option marked
correct; the option count is whatever the block supplied (the concrete
two-option block is emitted intact). -/
theorem c1_amended :
    (∀ (s : String) (q : Question), q ∈ parseTextFormatQuestions s →
      correctOptionCount q ≤ 1) ∧
    parseTextFormatQuestions twoOptionText =
      [{ id := 1, text := "Q?", sectionLabel := "General",
         options := [{ id := 1, text := "x", isCorrect := true, explanation := "" },
                     { id := 2, text := "y", isCorrect := false, explanation := "" }] }] := by
  constructor
  · intro s q hq
    simp only [parseTextFormatQuestions, List.mem_filterMap] at hq
    obtain ⟨p, -, hp⟩ := hq
    unfold correctOptionCount
    rw [parseBlock_options p.1 p.2 q hp]
    exact countTrue_markCorrect _ _ _ (optionsOf_isCorrect_false _)
  · decide

/-- C1, witness for the amended theorem at a concrete input: the two-option
question emitted for `twoOptionText` has at most one correct option. -/
theorem c1_amended_witness :
    correctOptionCount
      { id := 1, text := "Q?", sectionLabel := "General",
        options := [{ id := 1, text := "x", isCorrect := true, explanation := "" },
                    { id := 2, text := "y", isCorrect := false, explanation := "" }] } ≤ 1 :=
  c1_amended.1 twoOptionText _ (by decide)

/-- C2.  The claim states that a failed structured parse triggers the
free-text fallback.  In the code `deserializeQuestions` catches the
`JSON.parse` error itself and returns `[]`, so `parseQuestionsFlexible`'s
`catch` branch — the only call site of the fallback — can never run:
`parseQuestionsFlexible` coincides with `deserializeQuestions` on all
inputs.  On the spec's own Scenario C text the structured parse fails and
the free-text parse would yield one question, yet the parser returns the
empty list. -/
theorem c2_fallback_dead :
    parseQuestionsFlexible = deserializeQuestions ∧
    coreErrorMsg (deserializeQuestionsCore scenarioCText) =
      some "Error parsing quiz questions JSON" ∧
    (parseQuestionsFlexible scenarioCText).length = 0 ∧
    (parseTextFormatQuestions scenarioCText).length = 1 := by
  refine ⟨rfl, ?_, ?_, ?_⟩
  · decide
  · decide
  · decide

/-- C8.  Scenario C: the free-text parser on the given block returns
exactly one question with text `What is X?`, section label `Intro`, the
four options in order, only index 1 (`bar`) marked correct and carrying the
explanation, all other options not correct. -/
theorem c8_scenario :
    parseTextFormatQuestions scenarioCText =
      [{ id := 1, text := "What is X?", sectionLabel := "Intro",
         options := [{ id := 1, text := "foo", isCorrect := false, explanation := "" },
                     { id := 2, text := "bar", isCorrect := true, explanation := "because bar" },
                     { id := 3, text := "baz", isCorrect := false, explanation := "" },
                     { id := 4, text := "qux", isCorrect := false, explanation := "" }] }] := by
  decide

/-- C9.  The leaderboard ranking reduces to one best attempt per user
(higher score first, ties by lower elapsed time), sorts the reduced list by
the same comparator, and takes the first `topCount`; on the spec's
Scenario D data with `topN = 2` it returns user b's 90/50 entry before
user a's 90/200 entry. -/
theorem c9_leaderboard :
    rankLeaderboard
      [{ userId := "a", score := 80, timeTaken := 100 },
       { userId := "a", score := 90, timeTaken := 200 },
       { userId := "b", score := 90, timeTaken := 50 }] 2 =
      [{ userId := "b", score := 90, timeTaken := 50 },
       { userId := "a", score := 90, timeTaken := 200 }] ∧
    rankLeaderboard = fun l topCount => (sortEntries (bestPerUser l)).take topCount := by
  exact ⟨by decide, rfl⟩

/-- C10, counterexample.  The claim states that a block with question text
but no `Correct Answer:` line gets its index-0 option marked correct rather
than being emitted with no correct option; but a block that also has no
option lines is emitted with an empty option list — hence with no correct
option at all. -/
theorem c10_cex :
    parseTextFormatQuestions noOptionText =
      [{ id := 1, text := "Hello", sectionLabel := "General", options := [] }] ∧
    (splitQuestionBlocks noOptionText).all
      (fun b => (correctLetterOf (linesOf b)).isNone) = true := by
  constructor
  · decide
  · decide

/-- C10, amended.  For a block emitted by `parseBlock` whose lines carry no
`Correct Answer:` letter (or an empty one), provided the block yielded at
least one option, the option at index 0 is marked correct and receives the
block's explanation while all later options stay not-correct; a block with
no option lines is instead emitted with an empty option list. -/
theorem c10_amended (i : Nat) (block : String) (q : Question)
    (hq : parseBlock i block = some q)
    (hno : correctLetterOf (linesOf block) = none ∨
      correctLetterOf (linesOf block) = some "")
    (hopts : q.options ≠ []) :
    ∃ o rest, q.options = o :: rest ∧ o.isCorrect = true ∧
      o.explanation = explanationOf (linesOf block) ∧
      ∀ o' ∈ rest, o'.isCorrect = false := by
  have hidx : correctIndexOf (linesOf block) = 0 := by
    unfold correctIndexOf
    rcases hno with h | h <;> simp [h]
  have hops := parseBlock_options i block q hq
  rw [hidx] at hops
  rcases hOpts : optionsOf (linesOf block) with _ | ⟨o0, os⟩
  · rw [hOpts] at hops
    have hnil : markCorrect [] 0 (explanationOf (linesOf block)) = [] := by
      simp [markCorrect]
    exact absurd (hops.trans hnil) hopts
  · rw [hOpts] at hops
    have hmark : markCorrect (o0 :: os) 0 (explanationOf (linesOf block)) =
        { o0 with isCorrect := true, explanation := explanationOf (linesOf block) } :: os := by
      unfold markCorrect
      rw [if_pos ⟨le_refl 0, by simp⟩]
      rfl
    rw [hmark] at hops
    refine ⟨_, os, hops, rfl, rfl, ?_⟩
    intro o' ho'
    exact optionsOf_isCorrect_false (linesOf block) o'
      (by rw [hOpts]; exact List.mem_cons_of_mem o0 ho')

/-- C10, witness for the amended theorem at a concrete block with one
option and no correct-answer line. -/
theorem c10_amended_witness :
    ∃ o rest,
      ({ id := 1, text := "T", sectionLabel := "General",
         options := [{ id := 1, text := "x", isCorrect := true, explanation := "" }] } :
          Question).options = o :: rest ∧
      o.isCorrect = true ∧ o.explanation = explanationOf (linesOf " T\nA) x") ∧
      ∀ o' ∈ rest, o'.isCorrect = false :=
  c10_amended 0 " T\nA) x" _ (by decide) (Or.inl (by decide)) (by decide)

/-- The fixture refuting C6: one section whose trimmed body is 250
characters (valid, and the valid-section bodies alone total 250 ≥ 200) next
to one empty section. -/
def sectionsC6 : List RawSection :=
  [{ title := "A", content := ⟨List.replicate 250 'x'⟩ }, { title := "B", content := "" }]

/-- C6, counterexample.  The claim's predicate — at least one valid section
and at least 200 characters of valid-section body — holds for
`sectionsC6`, yet validation fails: the code additionally requires at least
2 valid sections whenever more than one section exists. -/
theorem c6_cex :
    (validateForQuizGeneration sectionsC6).1 = false ∧
    0 < specValidSectionCount sectionsC6 ∧ 200 ≤ specValidBodyTotal sectionsC6 := by
  refine ⟨?_, ?_, ?_⟩
  · decide
  · decide
  · decide

/-- C6, amended.  Validation succeeds iff there is at least one section,
the trimmed lengths of ALL sections (valid or not) total at least 200, at
least one section is valid (trimmed length ≥ 50), and either at least two
sections are valid or there is at most one section; on failure the issues
list is a non-empty list of human-readable reasons. -/
theorem c6_amended (sections : List RawSection) :
    ((validateForQuizGeneration sections).1 = true ↔
      ((analyzeCourseContent sections).totalSections > 0 ∧
       (analyzeCourseContent sections).totalCharacters ≥ 200 ∧
       (analyzeCourseContent sections).validSections > 0 ∧
       ((analyzeCourseContent sections).validSections ≥ 2 ∨
        (analyzeCourseContent sections).totalSections ≤ 1))) ∧
    ((validateForQuizGeneration sections).1 = false →
      (validateForQuizGeneration sections).2 ≠ []) := by
  simp only [validateForQuizGeneration]
  by_cases h1 : (analyzeCourseContent sections).totalSections > 0 <;>
    by_cases h2 : (analyzeCourseContent sections).totalCharacters ≥ 200 <;>
      by_cases h3 : (analyzeCourseContent sections).validSections > 0 <;>
        by_cases h4 : (analyzeCourseContent sections).validSections < 2 ∧
          (analyzeCourseContent sections).totalSections > 1 <;>
          (simp [h1, h2, h3, h4]; try omega)

/-- C6, witness: the amended theorem applied at the concrete fixture:
the failed validation carries a non-empty reasons list. -/
theorem c6_amended_witness :
    (validateForQuizGeneration sectionsC6).2 ≠ [] :=
  (c6_amended sectionsC6).2 (by decide)

/-- Re-indexing does not change how many questions a sub-call returned. -/
theorem reindexQuestions_length (base : Nat) (qs : List Question) :
    (reindexQuestions base qs).length = qs.length := by
  simp [reindexQuestions]

/-- The chunk loop makes at most one sub-call per remaining section. -/
theorem chunkLoop_trace_length (oracle : Nat → Except Unit (List Question))
    (qps numQ : Nat) :
    ∀ (l : List (Nat × CourseSection)) (acc : List Question) (tr : List Nat),
      ((chunkLoop oracle qps numQ l acc tr).2).length ≤ tr.length + l.length := by
  intro l
  induction l with
  | nil => intro acc tr; simp [chunkLoop]
  | cons p rest ih =>
    intro acc tr
    obtain ⟨i, s⟩ := p
    simp only [chunkLoop]
    by_cases hlt : acc.length < numQ
    · simp only [hlt, if_true]
      by_cases hz : min qps (numQ - acc.length) = 0
      · simp only [hz, if_true]
        simp
      · simp only [hz, if_false]
        rcases horacle : oracle i with e | qs
        · refine le_trans (ih _ _) ?_
          simp only [List.length_append, List.length_cons, List.length_nil]
          omega
        · refine le_trans (ih _ _) ?_
          simp only [List.length_append, List.length_cons, List.length_nil]
          omega
    · simp only [hlt, if_false]
      simp

/-- Every sub-call of the chunk loop requests at most `questionsPerSection`
questions. -/
theorem chunkLoop_trace_le_qps (oracle : Nat → Except Unit (List Question))
    (qps numQ : Nat) :
    ∀ (l : List (Nat × CourseSection)) (acc : List Question) (tr : List Nat),
      (∀ t ∈ tr, t ≤ qps) →
      ∀ t ∈ (chunkLoop oracle qps numQ l acc tr).2, t ≤ qps := by
  intro l
  induction l with
  | nil => intro acc tr h; simpa [chunkLoop] using h
  | cons p rest ih =>
    intro acc tr h
    obtain ⟨i, s⟩ := p
    simp only [chunkLoop]
    by_cases hlt : acc.length < numQ
    · simp only [hlt, if_true]
      have hext : ∀ t ∈ tr ++ [min qps (numQ - acc.length)], t ≤ qps := by
        intro t ht
        rcases List.mem_append.1 ht with ht | ht
        · exact h t ht
        · simp only [List.mem_singleton] at ht
          exact ht ▸ min_le_left _ _
      by_cases hz : min qps (numQ - acc.length) = 0
      · simp only [hz, if_true]
        exact h
      · simp only [hz, if_false]
        rcases horacle : oracle i with e | qs
        · exact ih _ _ hext
        · exact ih _ _ hext
    · simp only [hlt, if_false]
      exact h

/-- When every sub-call delivers at least the requested number of
questions, the chunk loop's requested counts sum to at most the questions
still missing. -/
theorem chunkLoop_trace_sum (oracle : Nat → Except Unit (List Question))
    (qps numQ : Nat)
    (hg : ∀ i, ∃ qs, oracle i = .ok qs ∧ qps ≤ qs.length) :
    ∀ (l : List (Nat × CourseSection)) (acc : List Question) (tr : List Nat),
      acc.length ≤ numQ →
      ((chunkLoop oracle qps numQ l acc tr).2).sum ≤ tr.sum + (numQ - acc.length) := by
  intro l
  induction l with
  | nil => intro acc tr _; simp [chunkLoop]
  | cons p rest ih =>
    intro acc tr hacc
    obtain ⟨i, s⟩ := p
    obtain ⟨qs, hok, hlen⟩ := hg i
    simp only [chunkLoop]
    by_cases hlt : acc.length < numQ
    · simp only [hlt, if_true]
      by_cases hz : min qps (numQ - acc.length) = 0
      · simp only [hz, if_true]
        simp
      · simp only [hz, if_false, hok]
        have hneed : min qps (numQ - acc.length) ≤ qs.length :=
          le_trans (min_le_left _ _) hlen
        have hlen' :
            (acc ++ (reindexQuestions acc.length qs).take (min qps (numQ - acc.length))).length =
              acc.length + min qps (numQ - acc.length) := by
          simp only [List.length_append, List.length_take, reindexQuestions_length]
          omega
        have hle : acc.length + min qps (numQ - acc.length) ≤ numQ := by
          have := min_le_right qps (numQ - acc.length)
          omega
        have := ih (acc ++ (reindexQuestions acc.length qs).take (min qps (numQ - acc.length)))
          (tr ++ [min qps (numQ - acc.length)]) (by rw [hlen']; exact hle)
        refine le_trans this ?_
        rw [hlen']
        simp only [List.sum_append, List.sum_cons, List.sum_nil]
        omega
    · simp only [hlt, if_false]
      simp

/-- The three dummy sections used by the C5 fixtures. -/
def sectionsC5 : List CourseSection :=
  [{ title := "s1", content := "c1" }, { title := "s2", content := "c2" },
   { title := "s3", content := "c3" }]

/-- C5, counterexample.  With 3 valid sections and `numQuestions = 5`,
`questionsPerSection = ceil(5/3) = 2`; when every sub-call fails (and is
skipped, per the loop's partial-failure policy) the loop still requests 2
questions from each of the 3 sections, so the per-section requested counts
sum to 6 > 5, refuting the claim's bound. -/
theorem c5_cex :
    ((generateQuizInChunks sectionsC5 5 fun _ => Except.error ()).2).sum = 6 := by
  decide

/-- C5, amended.  The number of sub-calls is at most `min(sections, 3)`
(early exit can make it fewer); each sub-call requests at most
`questionsPerSection = ceil(numQuestions / min(sections, 3))` (capped at
the questions still missing); the returned question list never exceeds
`numQuestions`; and when every sub-call yields at least the requested
count, the requested counts sum to at most `numQuestions` (with failing or
under-delivering sub-calls the sum may exceed it, as the counterexample
shows). -/
theorem c5_amended (sections : List CourseSection) (numQuestions : Nat)
    (oracle : Nat → Except Unit (List Question)) :
    ((generateQuizInChunks sections numQuestions oracle).1.length ≤ numQuestions) ∧
    ((generateQuizInChunks sections numQuestions oracle).2.length ≤
      min sections.length 3) ∧
    (∀ t ∈ (generateQuizInChunks sections numQuestions oracle).2,
      t ≤ questionsPerSectionOf sections.length numQuestions) ∧
    ((∀ i, ∃ qs, oracle i = .ok qs ∧
        questionsPerSectionOf sections.length numQuestions ≤ qs.length) →
      ((generateQuizInChunks sections numQuestions oracle).2).sum ≤ numQuestions) := by
  refine ⟨?_, ?_, ?_, ?_⟩
  · simp [generateQuizInChunks]
  · have h := chunkLoop_trace_length oracle
      (questionsPerSectionOf sections.length numQuestions) numQuestions
      (sections.take 3).enum [] []
    simp only [generateQuizInChunks]
    refine le_trans h ?_
    simp only [List.enum_length, List.length_take, List.length_nil]
    omega
  · intro t ht
    exact chunkLoop_trace_le_qps oracle _ numQuestions (sections.take 3).enum [] []
      (by intro t' ht'; cases ht') t ht
  · intro hg
    have h := chunkLoop_trace_sum oracle
      (questionsPerSectionOf sections.length numQuestions) numQuestions hg
      (sections.take 3).enum [] [] (by simp)
    simpa [generateQuizInChunks] using h

/-- C5, witness for the amended theorem: with three sections,
`numQuestions = 5` and an oracle always delivering 2 questions (the
requested `questionsPerSection`), the requested counts sum to at most 5. -/
theorem c5_amended_witness :
    ((generateQuizInChunks sectionsC5 5 fun _ =>
        Except.ok [{ id := 1, text := "t", sectionLabel := "s", options := [] },
                   { id := 2, text := "u", sectionLabel := "s", options := [] }]).2).sum ≤ 5 :=
  (c5_amended sectionsC5 5 _).2.2.2 fun _ =>
    ⟨[{ id := 1, text := "t", sectionLabel := "s", options := [] },
      { id := 2, text := "u", sectionLabel := "s", options := [] }], rfl, by decide⟩


/-- Decidable equality for `Except` results, used to evaluate the concrete
submission runs. -/
instance {e a : Type} [DecidableEq e] [DecidableEq a] : DecidableEq (Except e a) :=
  fun x y =>
    match x, y with
    | .error e1, .error e2 =>
      if h : e1 = e2 then isTrue (by rw [h])
      else isFalse fun hc => h (Except.error.inj hc)
    | .ok a1, .ok a2 =>
      if h : a1 = a2 then isTrue (by rw [h])
      else isFalse fun hc => h (Except.ok.inj hc)
    | .error _, .ok _ => isFalse fun hc => Except.noConfusion hc
    | .ok _, .error _ => isFalse fun hc => Except.noConfusion hc

/-! ## Submission fixtures -/

/-- A one-question quiz (two options, the first correct). -/
def questionC3 : Question :=
  { id := 1, text := "Q", sectionLabel := "S",
    options := [{ id := 1, text := "a", isCorrect := true, explanation := "ex" },
                { id := 2, text := "b", isCorrect := false, explanation := "" }] }

/-- An uncompleted quiz-result document for that quiz. -/
def resultC3 : QuizResultDoc :=
  { id := "r1", userId := "u1", courseId := "c1", questions := [questionC3],
    score := 0, isCompleted := false }

/-- The initial database for the C3 counterexample (no answers yet). -/
def dbC3 : DB := { quizResults := [resultC3], quizAnswers := [] }

/-- Two answers to the same question (each passes the guards, so each
causes one `quizAnswers` write). -/
def subsC3 : List SubAnswer :=
  [{ questionId := "q_1", selectedOptionId := 0 },
   { questionId := "q_1", selectedOptionId := 1 }]

/-- The answer document the first loop iteration persists. -/
def answerDocC3 : AnswerDoc :=
  { quizResultId := "r1", userId := "u1", questionId := "q_1",
    selectedOptionId := 0, isCorrect := true }

/-- The database after the failed submission of the C3 counterexample. -/
def dbC3After : DB := { quizResults := [resultC3], quizAnswers := [answerDocC3] }

/-- A completed quiz-result document (same data, already submitted). -/
def resultC4 : QuizResultDoc :=
  { id := "r1", userId := "u1", courseId := "c1", questions := [questionC3],
    score := 50, isCompleted := true }

/-- A database holding only the completed result. -/
def dbC4 : DB := { quizResults := [resultC4], quizAnswers := [] }

/-- An empty database (no quiz result at all). -/
def dbEmpty : DB := { quizResults := [], quizAnswers := [] }

/-- A two-question quiz for the C7 witness. -/
def questionsC7 : List Question :=
  [{ id := 1, text := "Q1", sectionLabel := "S",
     options := [{ id := 1, text := "a", isCorrect := true, explanation := "e1" },
                 { id := 2, text := "b", isCorrect := false, explanation := "" }] },
   { id := 2, text := "Q2", sectionLabel := "S",
     options := [{ id := 1, text := "c", isCorrect := false, explanation := "" },
                 { id := 2, text := "d", isCorrect := true, explanation := "e2" }] }]

/-- An uncompleted result for the two-question quiz. -/
def resultC7 : QuizResultDoc :=
  { id := "r7", userId := "u7", courseId := "c7", questions := questionsC7,
    score := 0, isCompleted := false }

/-- The database for the C7 witness. -/
def dbC7 : DB := { quizResults := [resultC7], quizAnswers := [] }

/-! ## Submission lemmas -/

/-- Whatever the answer loop does, it never touches `quizResults` and only
appends to `quizAnswers` — both when it finishes and when a write fails
midway. -/
theorem submitLoop_writes (questions : List Question) (rid uid : String)
    (failAt : Option Nat) :
    ∀ (subs : List SubAnswer) (c w : Nat) (db : DB),
      (∀ db', submitLoop questions rid uid failAt subs c w db = .error db' →
        db'.quizResults = db.quizResults ∧ db.quizAnswers <+: db'.quizAnswers) ∧
      (∀ c' w' db', submitLoop questions rid uid failAt subs c w db = .ok (c', w', db') →
        db'.quizResults = db.quizResults ∧ db.quizAnswers <+: db'.quizAnswers) := by
  intro subs
  induction subs with
  | nil =>
    intro c w db
    constructor
    · intro db' h
      simp [submitLoop] at h
    · intro c' w' db' h
      simp only [submitLoop, Except.ok.injEq, Prod.mk.injEq] at h
      rw [← h.2.2]
      exact ⟨rfl, List.prefix_refl _⟩
  | cons a rest ih =>
    intro c w db
    cases hfind : questions.find? (fun q => "q_" ++ toString q.id = a.questionId) with
    | none =>
      simpa only [submitLoop, hfind] using ih c w db
    | some questionData =>
      cases hsel : jsIndex questionData.options a.selectedOptionId with
      | none =>
        simpa only [submitLoop, hfind, hsel] using ih c w db
      | some selectedOption =>
        cases hcor : questionData.options.find? (fun o => o.isCorrect) with
        | none =>
          simpa only [submitLoop, hfind, hsel, hcor] using ih c w db
        | some correctOption =>
          by_cases hfail : failAt = some w
          · constructor
            · intro db' h
              simp only [submitLoop, hfind, hsel, hcor, hfail, if_true,
                Except.error.injEq] at h
              rw [← h]
              exact ⟨rfl, List.prefix_refl _⟩
            · intro c' w' db' h
              simp only [submitLoop, hfind, hsel, hcor, hfail, if_true] at h
              exact Except.noConfusion h
          · have hstep :
                submitLoop questions rid uid failAt (a :: rest) c w db =
                  submitLoop questions rid uid failAt rest
                    (if selectedOption.isCorrect then c + 1 else c) (w + 1)
                    { db with
                      quizAnswers := db.quizAnswers ++
                        [{ quizResultId := rid, userId := uid,
                           questionId := a.questionId,
                           selectedOptionId := a.selectedOptionId,
                           isCorrect := selectedOption.isCorrect }] } := by
              simp only [submitLoop, hfind, hsel, hcor, hfail, if_false]
            have hpre : db.quizAnswers <+:
                (db.quizAnswers ++
                  [{ quizResultId := rid, userId := uid, questionId := a.questionId,
                     selectedOptionId := a.selectedOptionId,
                     isCorrect := selectedOption.isCorrect }]) :=
              List.prefix_append _ _
            constructor
            · intro db' h
              rw [hstep] at h
              obtain ⟨h1, h2⟩ := (ih _ _ _).1 db' h
              exact ⟨h1, List.IsPrefix.trans hpre h2⟩
            · intro c' w' db' h
              rw [hstep] at h
              obtain ⟨h1, h2⟩ := (ih _ _ _).2 c' w' db' h
              exact ⟨h1, List.IsPrefix.trans hpre h2⟩

/-- If the `try` body of `submitQuiz` throws, the quiz-result collection is
untouched and the answers collection has only been appended to. -/
theorem submitQuizCore_error (db : DB) (rid uid : String) (subs : List SubAnswer)
    (failAt : Option Nat) (m : String) (dbf : DB)
    (h : submitQuizCore db rid uid subs failAt = .error (m, dbf)) :
    dbf.quizResults = db.quizResults ∧ db.quizAnswers <+: dbf.quizAnswers := by
  unfold submitQuizCore at h
  cases hfind : db.quizResults.find? (fun r => r.id = rid) with
  | none =>
    rw [hfind] at h
    injection h with h'
    have hdb : dbf = db := (congrArg Prod.snd h').symm
    subst hdb
    exact ⟨rfl, List.prefix_refl _⟩
  | some quizResult =>
    rw [hfind] at h
    simp only at h
    by_cases huid : quizResult.userId ≠ uid
    · rw [if_pos huid] at h
      injection h with h'
      have hdb : dbf = db := (congrArg Prod.snd h').symm
      subst hdb
      exact ⟨rfl, List.prefix_refl _⟩
    · rw [if_neg huid] at h
      by_cases hcomp : quizResult.isCompleted = true
      · rw [if_pos hcomp] at h
        injection h with h'
        have hdb : dbf = db := (congrArg Prod.snd h').symm
        subst hdb
        exact ⟨rfl, List.prefix_refl _⟩
      · rw [if_neg hcomp] at h
        cases hloop : submitLoop quizResult.questions rid uid failAt subs 0 0 db with
        | error dbe =>
          simp only [hloop] at h
          injection h with h'
          have hdb : dbf = dbe := (congrArg Prod.snd h').symm
          subst hdb
          exact (submitLoop_writes quizResult.questions rid uid failAt subs 0 0 db).1
            dbf hloop
        | ok triple =>
          obtain ⟨cc, wi, db1⟩ := triple
          simp only [hloop] at h
          by_cases hfail : failAt = some wi
          · rw [if_pos hfail] at h
            injection h with h'
            have hdb : dbf = db1 := (congrArg Prod.snd h').symm
            subst hdb
            exact (submitLoop_writes quizResult.questions rid uid failAt subs 0 0 db).2
              cc wi dbf hloop
          · rw [if_neg hfail] at h
            exact Except.noConfusion h

/-- C3, counterexample.  A submission of two answers with the second
`quizAnswers` write failing: the call reports failure, yet the first
per-answer record has been persisted — partial scoring state survives an
aborted submission. -/
theorem c3_cex :
    (submitQuiz dbC3 "r1" "u1" subsC3 (some 1)).1 = .error "Failed to submit quiz" ∧
    ((submitQuiz dbC3 "r1" "u1" subsC3 (some 1)).2).quizAnswers.length = 1 ∧
    dbC3.quizAnswers.length = 0 := by
  refine ⟨?_, ?_, ?_⟩
  · decide
  · decide
  · decide

/-- C3, amended.  `submitQuiz` is not atomic; what holds is: on any failure
the error surfaced is the generic `'Failed to submit quiz'`, the
quiz-result documents are unchanged (the completing update happens only on
success), and the previously stored answers are a prefix of the final
answers collection — but per-answer records written before the failure
remain persisted, as the counterexample's proper extension shows. -/
theorem c3_amended (db : DB) (rid uid : String) (subs : List SubAnswer)
    (failAt : Option Nat) (e : String) (db2 : DB)
    (h : submitQuiz db rid uid subs failAt = (.error e, db2)) :
    e = "Failed to submit quiz" ∧ db2.quizResults = db.quizResults ∧
      db.quizAnswers <+: db2.quizAnswers := by
  unfold submitQuiz at h
  cases hcore : submitQuizCore db rid uid subs failAt with
  | error p =>
    obtain ⟨m, dbf⟩ := p
    rw [hcore] at h
    simp only [Prod.mk.injEq, Except.error.injEq] at h
    obtain ⟨he, hdb⟩ := h
    obtain ⟨h1, h2⟩ := submitQuizCore_error db rid uid subs failAt m dbf hcore
    rw [← he, ← hdb]
    exact ⟨rfl, h1, h2⟩
  | ok p =>
    obtain ⟨out, dbo⟩ := p
    rw [hcore] at h
    simp at h

/-- C3, witness for the amended theorem at the counterexample input. -/
theorem c3_amended_witness :
    "Failed to submit quiz" = "Failed to submit quiz" ∧
    dbC3After.quizResults = dbC3.quizResults ∧
    dbC3.quizAnswers <+: dbC3After.quizAnswers :=
  c3_amended dbC3 "r1" "u1" subsC3 (some 1) "Failed to submit quiz" dbC3After (by decide)

/-- C4, counterexample.  Submitting an already-completed quiz fails with
exactly the same error value as submitting a non-existent quiz result —
the caller cannot distinguish the already-submitted case from other
submission failures. -/
theorem c4_cex :
    submitQuiz dbC4 "r1" "u1" [] none = (.error "Failed to submit quiz", dbC4) ∧
    submitQuiz dbEmpty "r1" "u1" [] none = (.error "Failed to submit quiz", dbEmpty) := by
  constructor
  · decide
  · decide

/-- C4, amended.  Re-submission of a completed quiz result fails with no
re-scoring and no state change, and the `try` body does throw the distinct
internal `'Quiz already submitted'` error — but the surrounding `catch`
replaces it, so the caller receives the generic `'Failed to submit quiz'`,
indistinguishable from other submission failures. -/
theorem c4_amended (db : DB) (rid uid : String) (subs : List SubAnswer)
    (failAt : Option Nat) (r : QuizResultDoc)
    (hfind : db.quizResults.find? (fun x => x.id = rid) = some r)
    (huid : r.userId = uid) (hcomp : r.isCompleted = true) :
    submitQuiz db rid uid subs failAt = (.error "Failed to submit quiz", db) ∧
    submitQuizCore db rid uid subs failAt = .error ("Quiz already submitted", db) := by
  have hcore : submitQuizCore db rid uid subs failAt =
      .error ("Quiz already submitted", db) := by
    unfold submitQuizCore
    rw [hfind]
    simp [huid, hcomp]
  refine ⟨?_, hcore⟩
  unfold submitQuiz
  rw [hcore]

/-- C4, witness for the amended theorem at the concrete completed record. -/
theorem c4_amended_witness :
    submitQuiz dbC4 "r1" "u1" [] none = (.error "Failed to submit quiz", dbC4) ∧
    submitQuizCore dbC4 "r1" "u1" [] none = .error ("Quiz already submitted", dbC4) :=
  c4_amended dbC4 "r1" "u1" [] none resultC4 (by decide) rfl rfl

/-- With no injected write failure the answer loop always finishes, and its
tally is exactly `countCorrect`. -/
theorem submitLoop_noFail (questions : List Question) (rid uid : String) :
    ∀ (subs : List SubAnswer) (c w : Nat) (db : DB),
      ∃ w' db', submitLoop questions rid uid none subs c w db =
        .ok (c + countCorrect questions subs, w', db') := by
  intro subs
  induction subs with
  | nil =>
    intro c w db
    exact ⟨w, db, by simp [submitLoop, countCorrect]⟩
  | cons a rest ih =>
    intro c w db
    cases hfind : questions.find? (fun q => "q_" ++ toString q.id = a.questionId) with
    | none =>
      obtain ⟨w', db', h⟩ := ih c w db
      refine ⟨w', db', ?_⟩
      simp only [submitLoop, hfind, countCorrect]
      exact h
    | some questionData =>
      cases hsel : jsIndex questionData.options a.selectedOptionId with
      | none =>
        obtain ⟨w', db', h⟩ := ih c w db
        refine ⟨w', db', ?_⟩
        simp only [submitLoop, hfind, hsel, countCorrect]
        exact h
      | some selectedOption =>
        cases hcor : questionData.options.find? (fun o => o.isCorrect) with
        | none =>
          obtain ⟨w', db', h⟩ := ih c w db
          refine ⟨w', db', ?_⟩
          simp only [submitLoop, hfind, hsel, hcor, countCorrect]
          exact h
        | some correctOption =>
          obtain ⟨w', db', h⟩ := ih (if selectedOption.isCorrect then c + 1 else c)
            (w + 1)
            { db with
              quizAnswers := db.quizAnswers ++
                [{ quizResultId := rid, userId := uid, questionId := a.questionId,
                   selectedOptionId := a.selectedOptionId,
                   isCorrect := selectedOption.isCorrect }] }
          refine ⟨w', db', ?_⟩
          have harith :
              (if selectedOption.isCorrect then c + 1 else c) + countCorrect questions rest =
                c + ((if selectedOption.isCorrect then 1 else 0) +
                  countCorrect questions rest) := by
            cases selectedOption.isCorrect <;> simp [Nat.add_assoc]
          simp only [submitLoop, hfind, hsel, hcor, countCorrect]
          simp only [if_false, reduceCtorEq]
          rw [h, harith]

/-- Observer: the score carried by a successful submission result. -/
def outcomeScore : Except String SubmitOutcome → Option Nat
  | .ok o => some o.score
  | .error _ => none

/-- A forty-question quiz (two options each, the first correct), ids
1..40, for the C7 counterexample. -/
def questionsC7x : List Question :=
  (List.range 40).map fun k =>
    { id := k + 1, text := "Q", sectionLabel := "S",
      options := [{ id := 1, text := "a", isCorrect := true, explanation := "" },
                  { id := 2, text := "b", isCorrect := false, explanation := "" }] }

/-- An uncompleted result holding the forty-question quiz. -/
def resultC7x : QuizResultDoc :=
  { id := "rx", userId := "ux", courseId := "cx", questions := questionsC7x,
    score := 0, isCompleted := false }

/-- The database for the C7 counterexample. -/
def dbC7x : DB := { quizResults := [resultC7x], quizAnswers := [] }

/-- Twenty-three correct answers (questions 1..23, option index 0). -/
def subsC7x : List SubAnswer :=
  (List.range 23).map fun k =>
    { questionId := "q_" ++ toString (k + 1), selectedOptionId := 0 }

/-- C7, counterexample.  On a forty-question quiz with 23 correct answers
the code computes 57: `23/40` rounds to the double
`0.57499999999999995559…`, the multiplication by 100 rounds to
`57.49999999999999289`, and `Math.round` takes that to 57 — while the
claim's `round(100 * correctCount / totalQuestionCount)` is 58. -/
theorem c7_cex :
    outcomeScore (submitQuiz dbC7x "rx" "ux" subsC7x none).1 = some 57 ∧
    countCorrect questionsC7x subsC7x = 23 ∧
    questionsC7x.length = 40 ∧
    specRoundPct 23 40 = 58 := by
  refine ⟨?_, ?_, ?_, ?_⟩
  · decide
  · decide
  · decide
  · decide

/-- C7, amended.  When the stored result exists, belongs to the user and
is not yet completed, a failure-free submission succeeds and its score is
`Math.round((correctCount / totalQuestionCount) * 100)` computed in
IEEE-754 double arithmetic (`jsScorePct`), whose two intermediate
roundings can differ from exact `round(100·c/n)` at half-integer
boundaries; the denominator is the total question count of the stored
quiz (answers skipped by the guards contribute nothing to `correctCount`,
so unanswered or invalid answers count as incorrect), and a quiz with
zero questions scores 0 without error. -/
theorem c7_score_formula (db : DB) (rid uid : String) (subs : List SubAnswer)
    (r : QuizResultDoc)
    (hfind : db.quizResults.find? (fun x => x.id = rid) = some r)
    (huid : r.userId = uid) (hcomp : r.isCompleted = false) :
    outcomeScore (submitQuiz db rid uid subs none).1 =
      some (if r.questions.length > 0 then
        jsScorePct (countCorrect r.questions subs) r.questions.length else 0) := by
  obtain ⟨w', db1, hloop⟩ := submitLoop_noFail r.questions rid uid subs 0 0 db
  have hne : ¬(r.userId ≠ uid) := fun hx => hx huid
  have hnc : ¬(r.isCompleted = true) := by rw [hcomp]; exact Bool.false_ne_true
  have hnf : ¬((none : Option Nat) = some w') := fun hc => Option.noConfusion hc
  unfold submitQuiz submitQuizCore
  simp only [hfind, if_neg hne, if_neg hnc, hloop, if_neg hnf]
  simp [outcomeScore]

/-- C7, witness: the amended formula at the concrete two-question quiz
with one correct answer submitted (`(1/2)*100` is exact in doubles, score
50). -/
theorem c7_score_formula_witness :
    outcomeScore (submitQuiz dbC7 "r7" "u7"
        [{ questionId := "q_1", selectedOptionId := 0 }] none).1 =
      some (if resultC7.questions.length > 0 then
        jsScorePct
          (countCorrect resultC7.questions
            [{ questionId := "q_1", selectedOptionId := 0 }])
          resultC7.questions.length else 0) :=
  c7_score_formula dbC7 "r7" "u7" [{ questionId := "q_1", selectedOptionId := 0 }]
    resultC7 (by decide) rfl rfl

end SmartLearn
